import Mathlib

/-!
Verification of the remote session and transfer engine of the PerfumesStore
repository (src/remote/ssh_run.py, src/remote/scp_run.py,
src/remote/upload_images.py).

The three Python entry points are shallowly embedded as pure Lean functions.
Effects are made explicit:
  * the parsed `.env` configuration becomes a `Config` record of optional
    strings (the spec treats `.env` parsing as an external collaborator and
    hands the core a configuration record);
  * the local filesystem state relevant to one invocation becomes a
    `LocalPath` value (missing / regular file / directory listing in
    enumeration order);
  * the network (paramiko) is an oracle (`SshBeh` / `SftpBeh`) saying which
    remote operation, if any, raises which exception;
  * every observable action (network calls, console prints, session close)
    is recorded in an event trace, and the invocation's result is a
    `RunResult` (returned code, `sys.exit` code, or an uncaught `ValueError`
    from `int()`).

Machine-level details carried over faithfully from the source:
  * `port = int(config.get('SSH_PORT', 22))` runs before the
    `if not all([host, user, password])` validation, so a malformed
    `SSH_PORT` raises `ValueError` first (`pyInt` models CPython's decimal
    `int()` grammar: optional surrounding whitespace, optional sign, digits
    with single underscores between digits);
  * Python truthiness: an absent key (`None`) and an empty string are both
    falsy in `all([...])`;
  * `stdout.read().decode('utf-8', errors='replace')` is modelled by a UTF-8
    decoder over byte lists that substitutes U+FFFD for undecodable input
    (recovery advances one byte at a time, a mild simplification of
    CPython's maximal-subpart policy that preserves the replaced-not-failed
    behaviour), and the ASCII sanitisation
    `encode('ascii', errors='replace')` by `asciiReplace`;
  * the `try/except/finally` shape: `AuthenticationException` first, then
    `SSHException`, then `Exception`, with `client.close()` in `finally`
    running on every path, including after `sys.exit` in a handler;
  * `scp_copy`'s inner `try: sftp.mkdir(...) except IOError: pass` swallows
    exactly `IOError`; any other exception propagates to the outer handlers;
  * `pathlib.Path.glob('*')` yields every direct child (hidden names
    included), in directory enumeration order, and `glob('*.png')` etc.
    match by name suffix only, without any regular-file check.
-/

namespace PerfumesStore

/-- Exception kinds raised by the modelled paramiko / OS operations, matching
the handler clauses of the source (`AuthenticationException`, `SSHException`,
`IOError`, any other `Exception`). -/
inductive Exc
  | authException
  | sshException (msg : String)
  | ioError (msg : String)
  | otherError (msg : String)
deriving DecidableEq, Repr

/-- Observable actions of one invocation, in order. `progress k total` stands
for the source line `print(f"Uploaded {i + 1}/{len(files)}")`. -/
inductive Event
  | connect
  | openSftp
  | mkdir (remotePath : String)
  | put (localName remotePath : String)
  | execCommand (cmd : String)
  | readStdout
  | readStderr
  | recvExitStatus
  | progress (uploaded total : Nat)
  | closeSftp
  | closeSession
  | printOut (s : String)
  | printErr (s : String)
deriving DecidableEq, Repr

/-- Kind of a directory entry, as reported by `Path.is_file()`. -/
inductive FileKind
  | file
  | dir
deriving DecidableEq, Repr

/-- One direct child of a local directory. -/
structure Entry where
  name : String
  kind : FileKind
deriving DecidableEq, Repr

/-- State of the local path handed to `scp_copy`: missing, a regular file, or
a directory whose direct children are listed in enumeration order. -/
inductive LocalPath
  | missing
  | file (name : String)
  | dir (entries : List Entry)
deriving DecidableEq, Repr

/-- The configuration record parsed from `.env`; `none` models an absent key.
Values are the already-stripped strings `load_env` produces. -/
structure Config where
  host : Option String
  user : Option String
  password : Option String
  portStr : Option String
deriving DecidableEq, Repr

/-- Python truthiness of `config.get(KEY)`: `None` and the empty string are
falsy. Emptiness is read off the character list of the string. -/
def truthy : Option String → Bool
  | none => false
  | some s => !s.data.isEmpty

/-- The check `all([host, user, password])`. -/
def Config.credsOk (c : Config) : Bool :=
  truthy c.host && truthy c.user && truthy c.password

/-- Numeric value of a decimal digit character. -/
def digitVal (c : Char) : Nat := c.toNat - '0'.toNat

/-- Digits of a decimal literal after the first one: CPython allows a single
underscore between two digits. Accumulates the value. -/
def parseDigitsAux (acc : Nat) : List Char → Option Nat
  | [] => some acc
  | '_' :: c :: rest =>
    if c.isDigit then parseDigitsAux (acc * 10 + digitVal c) rest else none
  | c :: rest =>
    if c.isDigit then parseDigitsAux (acc * 10 + digitVal c) rest else none

/-- CPython `int(s)` for base 10 (ASCII digits): optional surrounding
whitespace, optional sign, then a non-empty digit run with single
underscores between digits. `none` models a raised `ValueError`. -/
def pyInt (s : String) : Option Int :=
  let cs := ((s.data.dropWhile Char.isWhitespace).reverse.dropWhile Char.isWhitespace).reverse
  match cs with
  | '+' :: c :: rest =>
    if c.isDigit then (parseDigitsAux (digitVal c) rest).map Int.ofNat else none
  | '-' :: c :: rest =>
    if c.isDigit then (parseDigitsAux (digitVal c) rest).map (fun n => -(Int.ofNat n)) else none
  | c :: rest =>
    if c.isDigit then (parseDigitsAux (digitVal c) rest).map Int.ofNat else none
  | [] => none

/-- The source line `port = int(config.get('SSH_PORT', 22))`: default 22 when
the key is absent, otherwise CPython `int()` which may raise `ValueError`. -/
def parsePort (c : Config) : Option Int :=
  match c.portStr with
  | none => some 22
  | some s => pyInt s

/-- The Unicode replacement character U+FFFD used by `errors='replace'`. -/
def replacementChar : Char := Char.ofNat 0xFFFD

/-- Value of a UTF-8 continuation byte, or `none` if the byte is not one. -/
def contVal (b : Nat) : Option Nat :=
  if 0x80 ≤ b ∧ b ≤ 0xBF then some (b - 0x80) else none

/-- Decode one UTF-8 scalar from the head of a byte list: `some (cp, k)` when
the list starts with a valid `k`-byte encoding of code point `cp` (overlong
forms, surrogates and values above U+10FFFF rejected, as CPython does),
`none` otherwise. -/
def utf8Step : List Nat → Option (Nat × Nat)
  | [] => none
  | b :: rest =>
    if b < 0x80 then some (b, 1)
    else if b < 0xC2 then none
    else if b < 0xE0 then
      match rest with
      | b1 :: _ =>
        match contVal b1 with
        | some v1 => some ((b - 0xC0) * 64 + v1, 2)
        | none => none
      | [] => none
    else if b < 0xF0 then
      match rest with
      | b1 :: b2 :: _ =>
        match contVal b1, contVal b2 with
        | some v1, some v2 =>
          let cp := (b - 0xE0) * 4096 + v1 * 64 + v2
          if cp < 0x800 then none
          else if 0xD800 ≤ cp ∧ cp ≤ 0xDFFF then none
          else some (cp, 3)
        | _, _ => none
      | _ => none
    else if b < 0xF5 then
      match rest with
      | b1 :: b2 :: b3 :: _ =>
        match contVal b1, contVal b2, contVal b3 with
        | some v1, some v2, some v3 =>
          let cp := (b - 0xF0) * 262144 + v1 * 4096 + v2 * 64 + v3
          if cp < 0x10000 then none
          else if cp > 0x10FFFF then none
          else some (cp, 4)
        | _, _, _ => none
      | _ => none
    else none

/-- Fuel-indexed permissive UTF-8 decoding; the fuel only bounds the number
of decoding steps so that the recursion is structural, and
`utf8DecodeReplace` passes the byte count, which always suffices because
every step consumes at least one byte. -/
def utf8ReplaceFuel : Nat → List Nat → List Char
  | _, [] => []
  | 0, _ :: _ => []
  | fuel + 1, b :: rest =>
    match utf8Step (b :: rest) with
    | some (cp, k) => Char.ofNat cp :: utf8ReplaceFuel fuel (rest.drop (k - 1))
    | none => replacementChar :: utf8ReplaceFuel fuel rest

/-- Model of `bytes.decode('utf-8', errors='replace')`: total decoding where
every undecodable position yields U+FFFD instead of an error. -/
def utf8DecodeReplace (bs : List Nat) : List Char :=
  utf8ReplaceFuel bs.length bs

/-- Fuel-indexed strict UTF-8 decoding; see `utf8ReplaceFuel` for the fuel. -/
def utf8StrictFuel : Nat → List Nat → Option (List Char)
  | _, [] => some []
  | 0, _ :: _ => none
  | fuel + 1, b :: rest =>
    match utf8Step (b :: rest) with
    | some (cp, k) => (utf8StrictFuel fuel (rest.drop (k - 1))).map (fun cs => Char.ofNat cp :: cs)
    | none => none

/-- Model of strict `bytes.decode('utf-8')`: `none` models a raised
`UnicodeDecodeError`. Used only to state what `errors='replace'` changes. -/
def utf8DecodeStrict (bs : List Nat) : Option (List Char) :=
  utf8StrictFuel bs.length bs

/-- Model of `s.encode('ascii', errors='replace').decode('ascii')`: every
non-ASCII character becomes `?`. -/
def asciiReplace (s : List Char) : List Char :=
  s.map (fun c => if c.toNat ≤ 127 then c else '?')

/-- The full output pipeline of `ssh_run`: permissive UTF-8 decode of the raw
bytes, then ASCII sanitisation for printing. -/
def decodePrint (bs : List Nat) : List Char :=
  asciiReplace (utf8DecodeReplace bs)

/-- Result of the `try` block of an entry point: a `return`ed value or a
raised (classified) exception. -/
inductive TryOutcome
  | ret (code : Int)
  | exc (e : Exc)
deriving DecidableEq, Repr

/-- Result of one entry-point function: a returned exit code, a `sys.exit`
code, or an uncaught `ValueError` raised by `int()` on `SSH_PORT`. -/
inductive RunResult
  | ret (code : Int)
  | sysExit (code : Int)
  | valueError
deriving DecidableEq, Repr

/-- Process-level outcome once `__main__` has run: `sys.exit(n)` and a
returned code both become the process exit code; an uncaught exception ends
the process abnormally (CPython prints a traceback), outside the printed
exit-1 failure model. -/
inductive EntryOutcome
  | exited (code : Int)
  | uncaughtException
deriving DecidableEq, Repr

/-- The stderr line an `except` clause prints for each exception kind, as in
the source: a fixed message for `AuthenticationException`, the cause appended
for the other kinds. -/
def handlerEvent : Exc → Event
  | .authException => .printErr "Error: Authentication failed"
  | .sshException m => .printErr ("Error: SSH connection failed - " ++ m)
  | .ioError m => .printErr ("Error: " ++ m)
  | .otherError m => .printErr ("Error: " ++ m)

/-- The `except`/`finally` wrapper shared by all three entry points: on a
normal return the `finally` close runs and `onRet` maps the returned value;
on an exception the matching handler prints its line, then the `finally`
close runs, and the invocation ends as `onExc` (`return 1` in `scp_copy`,
`sys.exit(1)` in `ssh_run` and `upload_images`). -/
def runFinally (onExc : RunResult) (onRet : Int → RunResult) :
    TryOutcome × List Event → RunResult × List Event
  | (.ret n, evs) => (onRet n, evs ++ [.closeSession])
  | (.exc e, evs) => (onExc, evs ++ [handlerEvent e, .closeSession])

/-- Process-exit mapping applied by each `__main__` block. -/
def procExit : RunResult × List Event → EntryOutcome × List Event
  | (.ret n, evs) => (.exited n, evs)
  | (.sysExit n, evs) => (.exited n, evs)
  | (.valueError, evs) => (.uncaughtException, evs)

/-- Network-behaviour oracle for `ssh_run`: which operation (if any) raises,
and otherwise the raw stdout/stderr bytes and the remote exit status the
channel reports. -/
structure SshBeh where
  connectExc : Option Exc
  execExc : Option Exc
  stdoutBytes : List Nat
  stderrBytes : List Nat
  exitCode : Int

/-- Network-behaviour oracle for the SFTP entry points: which operation (if
any) raises; `putExc i` is the outcome of the `i`-th `sftp.put` of the
invocation (0-based). -/
structure SftpBeh where
  connectExc : Option Exc
  openSftpExc : Option Exc
  mkdirExc : Option Exc
  putExc : Nat → Option Exc

/-- The `try` block of `ssh_run`: connect, `exec_command`, drain stdout, then
stderr, then `recv_exit_status`; print each captured stream (ASCII-sanitised)
only when non-empty, and return the remote exit code. -/
def sshBody (cmd : String) (beh : SshBeh) : TryOutcome × List Event :=
  match beh.connectExc with
  | some e => (.exc e, [.connect])
  | none =>
    match beh.execExc with
    | some e => (.exc e, [.connect, .execCommand cmd])
    | none =>
      let out := decodePrint beh.stdoutBytes
      let errs := decodePrint beh.stderrBytes
      (.ret beh.exitCode,
        [.connect, .execCommand cmd, .readStdout, .readStderr, .recvExitStatus]
          ++ (if out.isEmpty then [] else [.printOut (String.mk out)])
          ++ (if errs.isEmpty then [] else [.printErr (String.mk errs)]))

/-- Embedding of `ssh_run(command)`: port parsing first (a malformed
`SSH_PORT` raises `ValueError` before anything else), then the credential
check (print + `sys.exit(1)`), then the `try/except/finally` block whose
handlers print and `sys.exit(1)` and whose `finally` closes the client. -/
def ssh_run (cfg : Config) (cmd : String) (beh : SshBeh) : RunResult × List Event :=
  match parsePort cfg with
  | none => (.valueError, [])
  | some _ =>
    if cfg.credsOk then
      runFinally (.sysExit 1) RunResult.ret (sshBody cmd beh)
    else
      (.sysExit 1, [.printErr "Error: Missing SSH configuration in .env file"])

/-- Embedding of the `__main__` block of `ssh_run.py`: usage error without
arguments, otherwise join the arguments with single spaces, run, and
`sys.exit` with the returned code. -/
def ssh_main (cfg : Config) (args : List String) (beh : SshBeh) : EntryOutcome × List Event :=
  if args.isEmpty then
    (.exited 1, [.printErr "Usage: python ssh_run.py <command>"])
  else
    procExit (ssh_run cfg (String.intercalate " " args) beh)

/-- The upload loop shared by `scp_copy` and `upload_images`: for each file,
`sftp.put` to `remotePath/<name>`; if the put raises, the exception aborts
the loop there; otherwise a progress line follows after every 10th file and
after the last one. Returns the events and the aborting exception, if any. -/
def putLoop (rp : String) (total : Nat) (pexc : Nat → Option Exc) :
    Nat → List Entry → List Event × Option Exc
  | _, [] => ([], none)
  | i, f :: rest =>
    match pexc i with
    | some e => ([.put f.name (rp ++ "/" ++ f.name)], some e)
    | none =>
      let prog : List Event :=
        if (i + 1) % 10 == 0 || i + 1 == total then [.progress (i + 1) total] else []
      let next := putLoop rp total pexc (i + 1) rest
      (Event.put f.name (rp ++ "/" ++ f.name) :: prog ++ next.1, next.2)

/-- The `try` block of `scp_copy`: connect, `open_sftp`; a regular file is
uploaded directly to `rp`; a directory is listed with `glob('*')` and
filtered by `is_file()` — if no files remain, print and return 0 (no mkdir,
no put); otherwise attempt `sftp.mkdir(rp)` with only `IOError` swallowed,
then upload every file in enumeration order and return 0. -/
def scpBody (fs : LocalPath) (rp : String) (beh : SftpBeh) : TryOutcome × List Event :=
  match beh.connectExc with
  | some e => (.exc e, [.connect])
  | none =>
    match beh.openSftpExc with
    | some e => (.exc e, [.connect, .openSftp])
    | none =>
      match fs with
      | .missing => (.ret 0, [])
      | .file name =>
        match beh.putExc 0 with
        | some e =>
          (.exc e, [.connect, .openSftp, .printOut ("Uploading " ++ name ++ "..."),
            .put name rp])
        | none =>
          (.ret 0, [.connect, .openSftp, .printOut ("Uploading " ++ name ++ "..."),
            .put name rp, .printOut ("Done! Uploaded " ++ name), .closeSftp])
      | .dir entries =>
        let files := entries.filter (fun e => e.kind == FileKind.file)
        if files.isEmpty then
          (.ret 0, [.connect, .openSftp, .printOut "No files found to upload."])
        else
          match beh.mkdirExc with
          | some Exc.authException =>
            (.exc .authException, [.connect, .openSftp, .mkdir rp])
          | some (Exc.sshException m) =>
            (.exc (.sshException m), [.connect, .openSftp, .mkdir rp])
          | some (Exc.otherError m) =>
            (.exc (.otherError m), [.connect, .openSftp, .mkdir rp])
          | some (Exc.ioError _) | none =>
            let front := [Event.connect, .openSftp, .mkdir rp,
              .printOut ("Uploading " ++ toString files.length ++ " files...")]
            match putLoop rp files.length beh.putExc 0 files with
            | (evs, some e) => (.exc e, front ++ evs)
            | (evs, none) =>
              (.ret 0, front ++ evs
                ++ [.printOut ("Done! Uploaded " ++ toString files.length ++ " files."),
                  .closeSftp])

/-- Embedding of `scp_copy(local_path, remote_path)`: port parsing first,
then the credential check (print + `sys.exit(1)`), then the local-existence
check (print + `sys.exit(1)`), then the connecting banner and the
`try/except/finally` block whose handlers print and `return 1` and whose
`finally` closes the client. -/
def scp_copy (cfg : Config) (lp rp : String) (fs : LocalPath) (beh : SftpBeh) :
    RunResult × List Event :=
  match parsePort cfg with
  | none => (.valueError, [])
  | some _ =>
    if cfg.credsOk then
      match fs with
      | .missing => (.sysExit 1, [.printErr ("Error: Local path not found: " ++ lp)])
      | _ =>
        let finished := runFinally (.ret 1) RunResult.ret (scpBody fs rp beh)
        (finished.1, .printOut ("Connecting to " ++ cfg.host.getD "" ++ "...") :: finished.2)
    else
      (.sysExit 1, [.printErr "Error: Missing SSH configuration in .env file"])

/-- Embedding of the `__main__` block of `scp_run.py` once both path
arguments are in hand: `sys.exit(scp_copy(...))`. -/
def scp_main (cfg : Config) (lp rp : String) (fs : LocalPath) (beh : SftpBeh) :
    EntryOutcome × List Event :=
  procExit (scp_copy cfg lp rp fs beh)

/-- The hardcoded remote destination of `upload_images.py`. -/
def remoteImagesDir : String := "/root/PerfumesStore/server/uploads/products"

/-- Matching of a glob pattern of the shape `*.ext` against an entry name:
the name must end with the suffix. Computed on the character lists. -/
def matchesSuffix (name suffix : String) : Bool :=
  suffix.data.isSuffixOf name.data

/-- The file selection of `upload_images`:
`glob('*.png') + glob('*.jpg') + glob('*.webp')` — selection is by name
suffix only and keeps enumeration order within each pattern; note the source
applies no `is_file()` filter here, so a subdirectory with a matching name is
selected too. -/
def imageGlob (entries : List Entry) : List Entry :=
  entries.filter (fun e => matchesSuffix e.name ".png")
    ++ entries.filter (fun e => matchesSuffix e.name ".jpg")
    ++ entries.filter (fun e => matchesSuffix e.name ".webp")

/-- The `try` block of `upload_images`: connect, `open_sftp`, then the mkdir
attempt (before listing files, `IOError` swallowed), then the glob selection;
if empty, print and return; otherwise upload every selected entry in order. -/
def uploadImagesBody (entries : List Entry) (beh : SftpBeh) : TryOutcome × List Event :=
  match beh.connectExc with
  | some e => (.exc e, [.connect])
  | none =>
    match beh.openSftpExc with
    | some e => (.exc e, [.connect, .openSftp])
    | none =>
      match beh.mkdirExc with
      | some Exc.authException =>
        (.exc .authException, [.connect, .openSftp, .mkdir remoteImagesDir])
      | some (Exc.sshException m) =>
        (.exc (.sshException m), [.connect, .openSftp, .mkdir remoteImagesDir])
      | some (Exc.otherError m) =>
        (.exc (.otherError m), [.connect, .openSftp, .mkdir remoteImagesDir])
      | some (Exc.ioError _) | none =>
        let files := imageGlob entries
        if files.isEmpty then
          (.ret 0, [.connect, .openSftp, .mkdir remoteImagesDir,
            .printOut "No image files found to upload."])
        else
          let front := [Event.connect, .openSftp, .mkdir remoteImagesDir,
            .printOut ("Uploading " ++ toString files.length ++ " images...")]
          match putLoop remoteImagesDir files.length beh.putExc 0 files with
          | (evs, some e) => (.exc e, front ++ evs)
          | (evs, none) =>
            (.ret 0, front ++ evs
              ++ [.printOut ("Done! Uploaded " ++ toString files.length ++ " images."),
                .closeSftp])

/-- Embedding of `upload_images()`: port parsing first, then the credential
check, then the existence check of the hardcoded local directory (`none`
models a missing directory), then the connecting banner and the
`try/except/finally` block whose handlers print and `sys.exit(1)`, whose
`finally` closes the client, and which returns `None` (process exit 0) on
success. -/
def upload_images (cfg : Config) (localDir : Option (List Entry)) (beh : SftpBeh) :
    RunResult × List Event :=
  match parsePort cfg with
  | none => (.valueError, [])
  | some _ =>
    if cfg.credsOk then
      match localDir with
      | none =>
        (.sysExit 1, [.printErr "Error: Local directory not found"])
      | some entries =>
        let finished := runFinally (.sysExit 1) (fun _ => .ret 0) (uploadImagesBody entries beh)
        (finished.1, .printOut ("Connecting to " ++ cfg.host.getD "" ++ "...") :: finished.2)
    else
      (.sysExit 1, [.printErr "Error: Missing SSH configuration in .env file"])

/-- Modelled from the spec: the Session lifecycle state machine
(`Unconnected -> Connected -> Closed`). The underlying `paramiko.SSHClient`
is third-party code not present in this repository; the spec states that
`close()` may be called in any state and that closing an already-closed or
never-connected Session is a no-op rather than an error, which this total
transition function expresses. -/
inductive SessionState
  | unconnected
  | connected
  | closed
deriving DecidableEq, Repr

/-- Modelled from the spec: `close()` moves any state to `closed`, raising no
error; in particular it is idempotent and safe on a never-connected
Session. -/
def SessionState.close : SessionState → SessionState
  | _ => .closed

/-- Recogniser for the session-release event. -/
def isCloseEvent : Event → Bool
  | .closeSession => true
  | _ => false

/-- Recogniser for file-upload attempts. -/
def isPutEvent : Event → Bool
  | .put _ _ => true
  | _ => false

/-- Recogniser for remote-directory-creation attempts. -/
def isMkdirEvent : Event → Bool
  | .mkdir _ => true
  | _ => false

/-- Recogniser for progress lines. -/
def isProgressEvent : Event → Bool
  | .progress _ _ => true
  | _ => false

/-- Recogniser for connection attempts. -/
def isConnectEvent : Event → Bool
  | .connect => true
  | _ => false

/-- Recogniser for stderr prints. -/
def isPrintErrEvent : Event → Bool
  | .printErr _ => true
  | _ => false

/-- When no put raises, the upload loop finishes without an exception, its
put events are exactly one per file in list order with the remote path
`rp/<name>`, and its progress events are exactly those at positions that are
multiples of 10 or equal to `total`. -/
theorem putLoop_ok (rp : String) (total : Nat) (pexc : Nat → Option Exc)
    (hall : ∀ j, pexc j = none) :
    ∀ (fs : List Entry) (i : Nat),
      (putLoop rp total pexc i fs).2 = none ∧
      (putLoop rp total pexc i fs).1.filter isPutEvent
        = fs.map (fun f => Event.put f.name (rp ++ "/" ++ f.name)) ∧
      (putLoop rp total pexc i fs).1.filter isProgressEvent
        = ((List.range' (i + 1) fs.length).filter
            (fun k => k % 10 == 0 || k == total)).map (fun k => Event.progress k total) ∧
      (putLoop rp total pexc i fs).1.countP isPrintErrEvent = 0 := by
  intro fs
  induction fs with
  | nil =>
    intro i
    simp [putLoop]
  | cons f rest ih =>
    intro i
    obtain ⟨ih1, ih2, ih3, ih4⟩ := ih (i + 1)
    simp only [putLoop, hall i]
    by_cases hc : (i + 1) % 10 = 0 ∨ i + 1 = total
    · simp [hc, isPutEvent, isProgressEvent, isPrintErrEvent, ih1, ih2, ih3, ih4,
        List.range'_succ, List.filter_cons, List.filter_append, List.countP_cons,
        List.countP_append]
    · simp [hc, isPutEvent, isProgressEvent, isPrintErrEvent, ih1, ih2, ih3, ih4,
        List.range'_succ, List.filter_cons, List.filter_append, List.countP_cons,
        List.countP_append]

/-- The upload loop never emits a session-close event, whatever the put
oracle does. -/
theorem putLoop_closeCount (rp : String) (total : Nat) (pexc : Nat → Option Exc) :
    ∀ (fs : List Entry) (i : Nat), (putLoop rp total pexc i fs).1.countP isCloseEvent = 0 := by
  intro fs
  induction fs with
  | nil =>
    intro i
    simp [putLoop]
  | cons f rest ih =>
    intro i
    simp only [putLoop]
    cases hp : pexc i with
    | some e => simp [List.countP_cons, isCloseEvent]
    | none =>
      simp only [List.countP_cons, List.countP_append, isCloseEvent, ih (i + 1)]
      split <;> simp [isCloseEvent, List.countP_cons]

/-- If every put before position `j` succeeds and the put at `j` raises `e`,
the loop stops at `j`: it reports `e` and its put events are exactly the
first `j + 1` files (the failing attempt included, nothing after it). -/
theorem putLoop_fail (rp : String) (total : Nat) (pexc : Nat → Option Exc) :
    ∀ (fs : List Entry) (i j : Nat) (e : Exc),
      (∀ k, k < j → pexc (i + k) = none) → pexc (i + j) = some e → j < fs.length →
      (putLoop rp total pexc i fs).2 = some e ∧
      (putLoop rp total pexc i fs).1.filter isPutEvent
        = (fs.take (j + 1)).map (fun f => Event.put f.name (rp ++ "/" ++ f.name)) := by
  intro fs
  induction fs with
  | nil =>
    intro i j e _ _ hj
    simp at hj
  | cons f rest ih =>
    intro i j e hok hfail hj
    cases j with
    | zero =>
      simp only [Nat.add_zero] at hfail
      simp [putLoop, hfail, isPutEvent]
    | succ j' =>
      have h0 : pexc i = none := by
        have := hok 0 (Nat.succ_pos j')
        simpa using this
      have hok' : ∀ k, k < j' → pexc (i + 1 + k) = none := by
        intro k hk
        have := hok (k + 1) (by omega)
        have harith : i + (k + 1) = i + 1 + k := by omega
        rwa [harith] at this
      have hfail' : pexc (i + 1 + j') = some e := by
        have harith : i + (j' + 1) = i + 1 + j' := by omega
        rwa [harith] at hfail
      have hj' : j' < rest.length := by
        simp at hj
        omega
      obtain ⟨ih1, ih2⟩ := ih (i + 1) j' e hok' hfail' hj'
      simp only [putLoop, h0]
      by_cases hc : (i + 1) % 10 = 0 ∨ i + 1 = total
      · simp [hc, isPutEvent, ih1, ih2, List.filter_cons, List.filter_append,
          List.take_succ_cons]
      · simp [hc, isPutEvent, ih1, ih2, List.filter_cons, List.filter_append,
          List.take_succ_cons]

/-- Wherever strict UTF-8 decoding succeeds within the given fuel, the
permissive decoder returns the same character sequence. -/
theorem utf8ReplaceFuel_of_strict :
    ∀ (fuel : Nat) (bs : List Nat),
      ∀ cs, utf8StrictFuel fuel bs = some cs → utf8ReplaceFuel fuel bs = cs := by
  intro fuel
  induction fuel with
  | zero =>
    intro bs cs hs
    match bs with
    | [] =>
      simp [utf8StrictFuel] at hs
      simp [utf8ReplaceFuel, ← hs]
    | b :: rest =>
      simp [utf8StrictFuel] at hs
  | succ n ih =>
    intro bs cs hs
    match bs with
    | [] =>
      simp [utf8StrictFuel] at hs
      simp [utf8ReplaceFuel, ← hs]
    | b :: rest =>
      cases hstep : utf8Step (b :: rest) with
      | none =>
        rw [utf8StrictFuel, hstep] at hs
        simp at hs
      | some pk =>
        obtain ⟨cp, k⟩ := pk
        rw [utf8StrictFuel, hstep] at hs
        simp only [Option.map_eq_some'] at hs
        obtain ⟨cs', hcs', hcons⟩ := hs
        rw [utf8ReplaceFuel, hstep, ← hcons]
        exact congrArg _ (ih _ _ hcs')

/-- Wherever strict UTF-8 decoding fails on undecodable input, the
permissive decoder still produces output, with the replacement character
U+FFFD standing in for the undecodable input. -/
theorem utf8ReplaceFuel_of_strict_none :
    ∀ (fuel : Nat) (bs : List Nat), bs.length ≤ fuel →
      utf8StrictFuel fuel bs = none → replacementChar ∈ utf8ReplaceFuel fuel bs := by
  intro fuel
  induction fuel with
  | zero =>
    intro bs hlen hs
    match bs with
    | [] => simp [utf8StrictFuel] at hs
    | b :: rest => simp at hlen
  | succ n ih =>
    intro bs hlen hs
    match bs with
    | [] =>
      simp [utf8StrictFuel] at hs
    | b :: rest =>
      cases hstep : utf8Step (b :: rest) with
      | none =>
        rw [utf8ReplaceFuel, hstep]
        exact List.mem_cons_self _ _
      | some pk =>
        obtain ⟨cp, k⟩ := pk
        rw [utf8StrictFuel, hstep] at hs
        simp only [Option.map_eq_none'] at hs
        have hlen' : (rest.drop (k - 1)).length ≤ n := by
          simp only [List.length_drop]
          simp only [List.length_cons] at hlen
          omega
        rw [utf8ReplaceFuel, hstep]
        exact List.mem_cons_of_mem _ (ih _ hlen' hs)

/-- The `try` block of `ssh_run` never emits a session-close event: the one
close comes from the `finally` wrapper alone. -/
theorem sshBody_closeCount (cmd : String) (beh : SshBeh) :
    (sshBody cmd beh).2.countP isCloseEvent = 0 := by
  simp only [sshBody]
  cases beh.connectExc with
  | some e => simp [isCloseEvent]
  | none =>
    cases beh.execExc with
    | some e => simp [isCloseEvent]
    | none =>
      by_cases ho : (decodePrint beh.stdoutBytes).isEmpty
      all_goals by_cases he : (decodePrint beh.stderrBytes).isEmpty
      all_goals simp [ho, he, isCloseEvent, List.countP_append, List.countP_cons]

/-- The `try` block of `scp_copy` never emits a session-close event. -/
theorem scpBody_closeCount (fs : LocalPath) (rp : String) (beh : SftpBeh) :
    (scpBody fs rp beh).2.countP isCloseEvent = 0 := by
  simp only [scpBody]
  cases beh.connectExc with
  | some e => simp [isCloseEvent]
  | none =>
    cases beh.openSftpExc with
    | some e => simp [isCloseEvent]
    | none =>
      cases fs with
      | missing => simp
      | file name =>
        cases beh.putExc 0 with
        | some e => simp [isCloseEvent, List.countP_cons]
        | none => simp [isCloseEvent, List.countP_cons]
      | dir entries =>
        by_cases hemp : (entries.filter (fun e => e.kind == FileKind.file)).isEmpty
        · simp [hemp, isCloseEvent, List.countP_cons]
        · have hcnt := putLoop_closeCount rp
            (entries.filter (fun e => e.kind == FileKind.file)).length beh.putExc
            (entries.filter (fun e => e.kind == FileKind.file)) 0
          rcases hpl : putLoop rp (entries.filter (fun e => e.kind == FileKind.file)).length
              beh.putExc 0 (entries.filter (fun e => e.kind == FileKind.file)) with ⟨evs, exc⟩
          rw [hpl] at hcnt
          cases hmk : beh.mkdirExc with
          | some e =>
            cases e with
            | authException => simp [hemp, isCloseEvent, List.countP_cons]
            | sshException m => simp [hemp, isCloseEvent, List.countP_cons]
            | otherError m => simp [hemp, isCloseEvent, List.countP_cons]
            | ioError m =>
              cases exc with
              | some e2 =>
                simp [hemp, hpl, isCloseEvent, List.countP_cons, List.countP_append, hcnt]
              | none =>
                simp [hemp, hpl, isCloseEvent, List.countP_cons, List.countP_append, hcnt]
          | none =>
            cases exc with
            | some e2 =>
              simp [hemp, hpl, isCloseEvent, List.countP_cons, List.countP_append, hcnt]
            | none =>
              simp [hemp, hpl, isCloseEvent, List.countP_cons, List.countP_append, hcnt]

/-- The `try` block of `upload_images` never emits a session-close event. -/
theorem uploadImagesBody_closeCount (entries : List Entry) (beh : SftpBeh) :
    (uploadImagesBody entries beh).2.countP isCloseEvent = 0 := by
  simp only [uploadImagesBody]
  cases beh.connectExc with
  | some e => simp [isCloseEvent]
  | none =>
    cases beh.openSftpExc with
    | some e => simp [isCloseEvent]
    | none =>
      have hcnt := putLoop_closeCount remoteImagesDir (imageGlob entries).length beh.putExc
        (imageGlob entries) 0
      rcases hpl : putLoop remoteImagesDir (imageGlob entries).length beh.putExc 0
          (imageGlob entries) with ⟨evs, exc⟩
      rw [hpl] at hcnt
      by_cases hemp : (imageGlob entries).isEmpty
      all_goals cases hmk : beh.mkdirExc with
      | some e =>
        cases e with
        | authException => simp [hemp, isCloseEvent, List.countP_cons]
        | sshException m => simp [hemp, isCloseEvent, List.countP_cons]
        | otherError m => simp [hemp, isCloseEvent, List.countP_cons]
        | ioError m =>
          cases exc with
          | some e2 => simp [hemp, hpl, isCloseEvent, List.countP_cons, List.countP_append, hcnt]
          | none => simp [hemp, hpl, isCloseEvent, List.countP_cons, List.countP_append, hcnt]
      | none =>
        cases exc with
        | some e2 => simp [hemp, hpl, isCloseEvent, List.countP_cons, List.countP_append, hcnt]
        | none => simp [hemp, hpl, isCloseEvent, List.countP_cons, List.countP_append, hcnt]

/-- The `except`/`finally` wrapper closes the session exactly once around a
`try` block that does not close it itself. -/
theorem runFinally_closeCount (onExc : RunResult) (onRet : Int → RunResult)
    (b : TryOutcome × List Event) (hb : b.2.countP isCloseEvent = 0) :
    (runFinally onExc onRet b).2.countP isCloseEvent = 1 := by
  rcases b with ⟨o, evs⟩
  simp only at hb
  cases o with
  | ret n =>
    simp only [runFinally, List.countP_append, hb]
    simp [List.countP_cons, isCloseEvent]
  | exc e =>
    simp only [runFinally, List.countP_append, hb]
    cases e with
    | authException => simp [handlerEvent, List.countP_cons, isCloseEvent]
    | sshException m => simp [handlerEvent, List.countP_cons, isCloseEvent]
    | ioError m => simp [handlerEvent, List.countP_cons, isCloseEvent]
    | otherError m => simp [handlerEvent, List.countP_cons, isCloseEvent]

/-- The permissive decoder agrees with strict decoding wherever the latter
succeeds. -/
theorem utf8DecodeReplace_of_strict (bs : List Nat) (cs : List Char)
    (h : utf8DecodeStrict bs = some cs) : utf8DecodeReplace bs = cs :=
  utf8ReplaceFuel_of_strict bs.length bs cs h

/-- The permissive decoder never fails: on input the strict decoder rejects,
it still returns a character list, containing the replacement character. -/
theorem utf8DecodeReplace_of_strict_none (bs : List Nat)
    (h : utf8DecodeStrict bs = none) : replacementChar ∈ utf8DecodeReplace bs :=
  utf8ReplaceFuel_of_strict_none bs.length bs le_rfl h

/-- A well-formed configuration used by concrete instantiations. -/
def cfg0 : Config := ⟨some "h", some "u", some "p", none⟩

/-- A configuration with the host absent and a malformed `SSH_PORT`. -/
def cfgBadPort : Config := ⟨none, some "u", some "p", some "abc"⟩

/-- A configuration with an empty host and a well-formed `SSH_PORT`. -/
def cfgNoHost : Config := ⟨some "", some "u", some "p", some "2222"⟩

/-- An all-success command-executor behaviour. -/
def sshBehOk : SshBeh := ⟨none, none, [104, 105, 10], [], 0⟩

/-- A command-executor behaviour whose remote command exits with 17. -/
def sshBeh17 : SshBeh := ⟨none, none, [], [], 17⟩

/-- A command-executor behaviour failing authentication at connect; the
remote-exit field 23 is never reached. -/
def sshBehAuth : SshBeh := ⟨some .authException, none, [], [], 23⟩

/-- A command-executor behaviour whose stdout bytes are not valid UTF-8. -/
def sshBehBad : SshBeh := ⟨none, none, [255], [104, 105], 5⟩

/-- An all-success SFTP behaviour. -/
def sftpBehOk : SftpBeh := ⟨none, none, none, fun _ => none⟩

/-- An SFTP behaviour whose mkdir raises `IOError` (directory exists). -/
def sftpBehMkdirFail : SftpBeh := ⟨none, none, some (.ioError "exists"), fun _ => none⟩

/-- An SFTP behaviour whose second put raises a transport error. -/
def sftpBehPutFail : SftpBeh :=
  ⟨none, none, none, fun i => if i == 1 then some (.sshException "dropped") else none⟩

/-- A directory listing with three regular files and one subdirectory. -/
def entries3 : List Entry :=
  [⟨"a.png", .file⟩, ⟨"sub", .dir⟩, ⟨"b.jpg", .file⟩, ⟨"c.txt", .file⟩]

/-- A directory whose only entry is a subdirectory named like an image. -/
def dirOnlySub : List Entry := [⟨"sub.png", FileKind.dir⟩]

/-- C10: when `SSH_PORT` is present but not a decimal integer string, every
entry point raises `ValueError` at `int()` — before the missing-credential
validation, before any print, and before any network activity — so the
invocation ends as an unclassified exception, not as the printed exit-1
failure model. The empty trace in each conjunct shows nothing at all was
done before the raise. -/
theorem malformedPortRaisesValueError (cfg : Config) (s : String)
    (hs : cfg.portStr = some s) (hbad : pyInt s = none) (cmd lp rp : String)
    (fs : LocalPath) (sbeh : SshBeh) (tbeh : SftpBeh) (dir? : Option (List Entry))
    (args : List String) (hargs : args ≠ []) :
    ssh_run cfg cmd sbeh = (.valueError, []) ∧
    scp_copy cfg lp rp fs tbeh = (.valueError, []) ∧
    upload_images cfg dir? tbeh = (.valueError, []) ∧
    (ssh_main cfg args sbeh).1 = .uncaughtException := by
  have hp : parsePort cfg = none := by simp [parsePort, hs, hbad]
  refine ⟨?_, ?_, ?_, ?_⟩
  · simp [ssh_run, hp]
  · simp [scp_copy, hp]
  · simp [upload_images, hp]
  · cases args with
    | nil => exact absurd rfl hargs
    | cons a as => simp [ssh_main, ssh_run, hp, procExit]

/-- Witness for C10 at a concrete malformed port (`SSH_PORT=abc`), with the
host also absent: the `ValueError` pre-empts the credential validation. -/
theorem malformedPortRaisesValueErrorWitness :
    ssh_run cfgBadPort "ls" sshBehOk = (.valueError, []) ∧
    scp_copy cfgBadPort "a" "b" (LocalPath.dir []) sftpBehOk = (.valueError, []) ∧
    upload_images cfgBadPort (some []) sftpBehOk = (.valueError, []) ∧
    (ssh_main cfgBadPort ["ls"] sshBehOk).1 = .uncaughtException :=
  malformedPortRaisesValueError cfgBadPort "abc" rfl (by decide) "ls" "a" "b"
    (LocalPath.dir []) sshBehOk sftpBehOk (some []) ["ls"] (by decide)

/-- C5 as frozen is refuted: at configuration `cfgBadPort` the host is
absent, yet no entry point rejects with the distinct printed
missing-configuration failure and exit code 1 — the malformed `SSH_PORT`
makes `int()` raise first, ending each invocation as an uncaught
`ValueError` with an empty trace (no stderr line at all). -/
theorem missingHostWithBadPortNotConfigFailure :
    truthy cfgBadPort.host = false ∧
    (ssh_run cfgBadPort "ls" sshBehOk).1 = RunResult.valueError ∧
    (ssh_run cfgBadPort "ls" sshBehOk).1 ≠ RunResult.sysExit 1 ∧
    (ssh_run cfgBadPort "ls" sshBehOk).2 = [] ∧
    (scp_copy cfgBadPort "a" "b" (LocalPath.dir []) sftpBehOk).1 = RunResult.valueError ∧
    (upload_images cfgBadPort (some []) sftpBehOk).1 = RunResult.valueError := by
  decide

/-- C5 (amended): for every configuration in which any one of host, user, or
secret is empty or absent — and in which `SSH_PORT`, when present, parses as
a decimal integer — every entry point rejects with the distinct pre-flight
configuration failure (`sys.exit(1)` after printing the missing-configuration
message), and its whole trace is that single stderr line, so no network
connection is attempted. -/
theorem preflightConfigValidation (cfg : Config) (p : Int)
    (hp : parsePort cfg = some p) (hcred : cfg.credsOk = false)
    (cmd lp rp : String) (fs : LocalPath) (sbeh : SshBeh) (tbeh : SftpBeh)
    (dir? : Option (List Entry)) :
    ssh_run cfg cmd sbeh
      = (.sysExit 1, [.printErr "Error: Missing SSH configuration in .env file"]) ∧
    scp_copy cfg lp rp fs tbeh
      = (.sysExit 1, [.printErr "Error: Missing SSH configuration in .env file"]) ∧
    upload_images cfg dir? tbeh
      = (.sysExit 1, [.printErr "Error: Missing SSH configuration in .env file"]) := by
  refine ⟨?_, ?_, ?_⟩
  · simp [ssh_run, hp, hcred]
  · simp [scp_copy, hp, hcred]
  · simp [upload_images, hp, hcred]

/-- Witness for the amended C5 at a concrete configuration with an empty
host and `SSH_PORT=2222`. -/
theorem preflightConfigValidationWitness :
    ssh_run cfgNoHost "ls" sshBehOk
      = (.sysExit 1, [.printErr "Error: Missing SSH configuration in .env file"]) ∧
    scp_copy cfgNoHost "a" "b" (LocalPath.dir []) sftpBehOk
      = (.sysExit 1, [.printErr "Error: Missing SSH configuration in .env file"]) ∧
    upload_images cfgNoHost (some []) sftpBehOk
      = (.sysExit 1, [.printErr "Error: Missing SSH configuration in .env file"]) :=
  preflightConfigValidation cfgNoHost 2222 (by decide) (by decide) "ls" "a" "b"
    (LocalPath.dir []) sshBehOk sftpBehOk (some [])

/-- C2: when the remote command runs, its exit code is surfaced verbatim as
the invocation's own exit code; an authentication failure — whether at
connect or during command execution — ends the process with the fixed
sentinel exit code 1 regardless of the remote exit field of the
behaviour. -/
theorem exitCodePropagation (cfg : Config) (p : Int) (hp : parsePort cfg = some p)
    (hcred : cfg.credsOk = true) (args : List String) (hargs : args ≠ [])
    (beh : SshBeh) :
    (beh.connectExc = none → beh.execExc = none →
      (ssh_main cfg args beh).1 = .exited beh.exitCode) ∧
    (beh.connectExc = some .authException →
      (ssh_main cfg args beh).1 = .exited 1) ∧
    (beh.connectExc = none → beh.execExc = some .authException →
      (ssh_main cfg args beh).1 = .exited 1) := by
  cases args with
  | nil => exact absurd rfl hargs
  | cons a as =>
    refine ⟨?_, ?_, ?_⟩
    · intro hc he
      simp [ssh_main, ssh_run, hp, hcred, sshBody, hc, he, runFinally, procExit]
    · intro hc
      simp [ssh_main, ssh_run, hp, hcred, sshBody, hc, runFinally, procExit]
    · intro hc he
      simp [ssh_main, ssh_run, hp, hcred, sshBody, hc, he, runFinally, procExit]

/-- Witness for C2: remote exit code 17 propagates as process exit 17, and
an authentication failure exits 1 although the behaviour's remote exit field
is 23. -/
theorem exitCodePropagationWitness :
    (ssh_main cfg0 ["true"] sshBeh17).1 = .exited 17 ∧
    (ssh_main cfg0 ["true"] sshBehAuth).1 = .exited 1 := by
  constructor
  · exact (exitCodePropagation cfg0 22 rfl (by decide) ["true"] (by decide) sshBeh17).1 rfl rfl
  · exact (exitCodePropagation cfg0 22 rfl (by decide) ["true"] (by decide) sshBehAuth).2.1 rfl

/-- C3: on every exit path of every entry point that has created the client
— normal return, any classified error raised by any modelled remote
operation, including the handlers that call `sys.exit` — the session-close
of the `finally` block runs exactly once; and (modelled from the spec, since
`paramiko.SSHClient` is outside this repository) `close()` is total and
idempotent, a no-op on an already-closed or never-connected session. -/
theorem sessionCloseExactlyOnce (cfg : Config) (p : Int)
    (hp : parsePort cfg = some p) (hcred : cfg.credsOk = true) (cmd lp rp : String)
    (sbeh : SshBeh) (fs : LocalPath) (hfs : fs ≠ LocalPath.missing) (tbeh : SftpBeh)
    (entries : List Entry) (ubeh : SftpBeh) :
    (ssh_run cfg cmd sbeh).2.countP isCloseEvent = 1 ∧
    (scp_copy cfg lp rp fs tbeh).2.countP isCloseEvent = 1 ∧
    (upload_images cfg (some entries) ubeh).2.countP isCloseEvent = 1 ∧
    (∀ st : SessionState, st.close.close = st.close) ∧
    SessionState.close .unconnected = .closed := by
  refine ⟨?_, ?_, ?_, ?_, rfl⟩
  · have h := runFinally_closeCount (.sysExit 1) RunResult.ret _ (sshBody_closeCount cmd sbeh)
    simp [ssh_run, hp, hcred, h]
  · cases fs with
    | missing => exact absurd rfl hfs
    | file name =>
      have h := runFinally_closeCount (.ret 1) RunResult.ret _
        (scpBody_closeCount (LocalPath.file name) rp tbeh)
      simp [scp_copy, hp, hcred, List.countP_cons, isCloseEvent, h]
    | dir es =>
      have h := runFinally_closeCount (.ret 1) RunResult.ret _
        (scpBody_closeCount (LocalPath.dir es) rp tbeh)
      simp [scp_copy, hp, hcred, List.countP_cons, isCloseEvent, h]
  · have h := runFinally_closeCount (.sysExit 1) (fun _ => RunResult.ret 0) _
      (uploadImagesBody_closeCount entries ubeh)
    simp [upload_images, hp, hcred, List.countP_cons, isCloseEvent, h]
  · intro st
    cases st <;> rfl

/-- Witness for C3 at concrete all-success runs of the three entry points. -/
theorem sessionCloseExactlyOnceWitness :
    (ssh_run cfg0 "ls" sshBehOk).2.countP isCloseEvent = 1 ∧
    (scp_copy cfg0 "a" "b" (LocalPath.dir entries3) sftpBehOk).2.countP isCloseEvent = 1 ∧
    (upload_images cfg0 (some entries3) sftpBehOk).2.countP isCloseEvent = 1 := by
  have h := sessionCloseExactlyOnce cfg0 22 rfl (by decide) "ls" "a" "b" sshBehOk
    (LocalPath.dir entries3) (by decide) sftpBehOk entries3 sftpBehOk
  exact ⟨h.1, h.2.1, h.2.2.1⟩

/-- C6: when the command runs, the executor's trace begins with connect,
command dispatch, a full read of stdout, then a full read of stderr, and only
then the exit-status read; the invocation completes with the remote exit code
for every byte content of either stream, because the decoding stage
(`decodePrint`, wired into the trace's print events) is the total
`errors='replace'` decoder: wherever strict UTF-8 decoding succeeds it agrees
with it, and wherever strict decoding fails it substitutes U+FFFD instead of
failing the operation. -/
theorem drainBeforeExitStatus (cfg : Config) (p : Int) (hp : parsePort cfg = some p)
    (hcred : cfg.credsOk = true) (cmd : String) (beh : SshBeh)
    (hconn : beh.connectExc = none) (hexec : beh.execExc = none) :
    (∃ tail, (ssh_run cfg cmd beh).2
        = [Event.connect, .execCommand cmd, .readStdout, .readStderr, .recvExitStatus]
            ++ tail) ∧
    (ssh_run cfg cmd beh).1 = .ret beh.exitCode ∧
    (∀ cs, utf8DecodeStrict beh.stdoutBytes = some cs →
      utf8DecodeReplace beh.stdoutBytes = cs) ∧
    (utf8DecodeStrict beh.stdoutBytes = none →
      replacementChar ∈ utf8DecodeReplace beh.stdoutBytes) ∧
    (∀ cs, utf8DecodeStrict beh.stderrBytes = some cs →
      utf8DecodeReplace beh.stderrBytes = cs) ∧
    (utf8DecodeStrict beh.stderrBytes = none →
      replacementChar ∈ utf8DecodeReplace beh.stderrBytes) := by
  refine ⟨?_, ?_, fun cs h => utf8DecodeReplace_of_strict _ _ h,
    fun h => utf8DecodeReplace_of_strict_none _ h,
    fun cs h => utf8DecodeReplace_of_strict _ _ h,
    fun h => utf8DecodeReplace_of_strict_none _ h⟩
  · refine ⟨(if (decodePrint beh.stdoutBytes).isEmpty then []
        else [Event.printOut (String.mk (decodePrint beh.stdoutBytes))])
      ++ (if (decodePrint beh.stderrBytes).isEmpty then []
        else [Event.printErr (String.mk (decodePrint beh.stderrBytes))])
      ++ [Event.closeSession], ?_⟩
    simp [ssh_run, hp, hcred, sshBody, hconn, hexec, runFinally, List.append_assoc]
  · simp [ssh_run, hp, hcred, sshBody, hconn, hexec, runFinally]

/-- Witness for C6: with stdout bytes `[255]` — rejected by strict UTF-8
decoding — the invocation still completes with the remote exit code 5, and
the permissive decoder yields the replacement character. -/
theorem drainBeforeExitStatusWitness :
    (ssh_run cfg0 "ls" sshBehBad).1 = .ret 5 ∧
    replacementChar ∈ utf8DecodeReplace sshBehBad.stdoutBytes := by
  have h := drainBeforeExitStatus cfg0 22 rfl (by decide) "ls" sshBehBad rfl rfl
  exact ⟨h.2.1, h.2.2.2.1 (by decide)⟩

/-- C7: for an existing local directory, `scp_copy` uploads exactly the
direct children that are regular files — subdirectories are filtered out and,
by construction of the embedding (which lists direct children only), never
recursed into — in the directory's enumeration order, each to the remote
path `remoteDir ++ "/" ++ baseName`, and the invocation returns 0. The
filtered put-event subsequence of the trace equals the per-file map, which
fixes the selection, the order, and the remote naming at once. -/
theorem directoryUploadSelectionAndOrder (cfg : Config) (p : Int)
    (hp : parsePort cfg = some p) (hcred : cfg.credsOk = true) (lp rp : String)
    (entries : List Entry) (beh : SftpBeh) (hconn : beh.connectExc = none)
    (hsftp : beh.openSftpExc = none) (hmk : beh.mkdirExc = none)
    (hput : ∀ j, beh.putExc j = none) :
    (scp_copy cfg lp rp (LocalPath.dir entries) beh).1 = .ret 0 ∧
    (scp_copy cfg lp rp (LocalPath.dir entries) beh).2.filter isPutEvent
      = (entries.filter (fun e => e.kind == FileKind.file)).map
          (fun f => Event.put f.name (rp ++ "/" ++ f.name)) := by
  obtain ⟨hl1, hl2, hl3, hl4⟩ := putLoop_ok rp
    (entries.filter (fun e => e.kind == FileKind.file)).length beh.putExc hput
    (entries.filter (fun e => e.kind == FileKind.file)) 0
  by_cases hemp : (entries.filter (fun e => e.kind == FileKind.file)).isEmpty
  · have hnil : entries.filter (fun e => e.kind == FileKind.file) = [] :=
      List.isEmpty_iff.mp hemp
    constructor
    · simp [scp_copy, hp, hcred, scpBody, hconn, hsftp, hemp, runFinally]
    · simp [scp_copy, hp, hcred, scpBody, hconn, hsftp, hemp, runFinally, hnil,
        List.filter_cons, List.filter_append, isPutEvent]
  · rcases hpl : putLoop rp (entries.filter (fun e => e.kind == FileKind.file)).length
        beh.putExc 0 (entries.filter (fun e => e.kind == FileKind.file)) with ⟨evs, exc⟩
    rw [hpl] at hl1 hl2
    simp only at hl1 hl2
    subst hl1
    constructor
    · simp [scp_copy, hp, hcred, scpBody, hconn, hsftp, hmk, hemp, hpl, runFinally]
    · simp [scp_copy, hp, hcred, scpBody, hconn, hsftp, hmk, hemp, hpl, runFinally,
        List.filter_cons, List.filter_append, isPutEvent, hl2]

/-- Witness for C7 on a concrete four-entry directory (three regular files,
one subdirectory): exactly the three files are uploaded, in enumeration
order, under `b/<name>`. -/
theorem directoryUploadSelectionAndOrderWitness :
    (scp_copy cfg0 "a" "b" (LocalPath.dir entries3) sftpBehOk).1 = .ret 0 ∧
    (scp_copy cfg0 "a" "b" (LocalPath.dir entries3) sftpBehOk).2.filter isPutEvent
      = [Event.put "a.png" "b/a.png", Event.put "b.jpg" "b/b.jpg",
          Event.put "c.txt" "b/c.txt"] := by
  have h := directoryUploadSelectionAndOrder cfg0 22 rfl (by decide) "a" "b" entries3
    sftpBehOk rfl rfl rfl (fun _ => rfl)
  exact ⟨h.1, h.2.trans (by decide)⟩

/-- C4: in a successful directory-upload batch of N files, the progress
events of the trace are exactly one `Uploaded k/N` line for each k in 1..N
with k a multiple of 10 or k = N, in that order and nowhere else (by
construction of `putLoop`, each progress event sits immediately after the
k-th put). This holds for `scp_copy`'s directory branch and for
`upload_images` alike; for N = 10, 20, … the final file produces the one
line its two conditions share, not two. -/
theorem progressCadence (cfg : Config) (p : Int)
    (hp : parsePort cfg = some p) (hcred : cfg.credsOk = true) (lp rp : String)
    (entries uentries : List Entry) (tbeh ubeh : SftpBeh)
    (hconn : tbeh.connectExc = none) (hsftp : tbeh.openSftpExc = none)
    (hmk : tbeh.mkdirExc = none) (hput : ∀ j, tbeh.putExc j = none)
    (huconn : ubeh.connectExc = none) (husftp : ubeh.openSftpExc = none)
    (humk : ubeh.mkdirExc = none) (huput : ∀ j, ubeh.putExc j = none) :
    (scp_copy cfg lp rp (LocalPath.dir entries) tbeh).2.filter isProgressEvent
      = ((List.range' 1 (entries.filter (fun e => e.kind == FileKind.file)).length).filter
          (fun k => k % 10 == 0
            || k == (entries.filter (fun e => e.kind == FileKind.file)).length)).map
          (fun k =>
            Event.progress k (entries.filter (fun e => e.kind == FileKind.file)).length) ∧
    (upload_images cfg (some uentries) ubeh).2.filter isProgressEvent
      = ((List.range' 1 (imageGlob uentries).length).filter
          (fun k => k % 10 == 0 || k == (imageGlob uentries).length)).map
          (fun k => Event.progress k (imageGlob uentries).length) := by
  constructor
  · obtain ⟨hl1, hl2, hl3, hl4⟩ := putLoop_ok rp
      (entries.filter (fun e => e.kind == FileKind.file)).length tbeh.putExc hput
      (entries.filter (fun e => e.kind == FileKind.file)) 0
    by_cases hemp : (entries.filter (fun e => e.kind == FileKind.file)).isEmpty
    · have hnil : entries.filter (fun e => e.kind == FileKind.file) = [] :=
        List.isEmpty_iff.mp hemp
      simp [scp_copy, hp, hcred, scpBody, hconn, hsftp, hemp, runFinally, hnil,
        List.filter_cons, isPutEvent, isProgressEvent]
    · rcases hpl : putLoop rp (entries.filter (fun e => e.kind == FileKind.file)).length
          tbeh.putExc 0 (entries.filter (fun e => e.kind == FileKind.file)) with ⟨evs, exc⟩
      rw [hpl] at hl1 hl3
      simp only at hl1 hl3
      subst hl1
      simp [scp_copy, hp, hcred, scpBody, hconn, hsftp, hmk, hemp, hpl, runFinally,
        List.filter_cons, List.filter_append, isProgressEvent, hl3]
  · obtain ⟨hl1, hl2, hl3, hl4⟩ := putLoop_ok remoteImagesDir
      (imageGlob uentries).length ubeh.putExc huput (imageGlob uentries) 0
    by_cases hemp : (imageGlob uentries).isEmpty
    · have hnil : imageGlob uentries = [] := List.isEmpty_iff.mp hemp
      simp [upload_images, hp, hcred, uploadImagesBody, huconn, husftp, humk, hemp,
        runFinally, hnil, List.filter_cons, isProgressEvent]
    · rcases hpl : putLoop remoteImagesDir (imageGlob uentries).length ubeh.putExc 0
          (imageGlob uentries) with ⟨evs, exc⟩
      rw [hpl] at hl1 hl3
      simp only at hl1 hl3
      subst hl1
      simp [upload_images, hp, hcred, uploadImagesBody, huconn, husftp, humk, hemp, hpl,
        runFinally, List.filter_cons, List.filter_append, isProgressEvent, hl3]

/-- Witness for C4: with 3 regular files in the directory, the one progress
line is `Uploaded 3/3`; with the 2 matching images of the same listing,
`upload_images` emits exactly `Uploaded 2/2`. -/
theorem progressCadenceWitness :
    (scp_copy cfg0 "a" "b" (LocalPath.dir entries3) sftpBehOk).2.filter isProgressEvent
      = [Event.progress 3 3] ∧
    (upload_images cfg0 (some entries3) sftpBehOk).2.filter isProgressEvent
      = [Event.progress 2 2] := by
  have h := progressCadence cfg0 22 rfl (by decide) "a" "b" entries3 entries3
    sftpBehOk sftpBehOk rfl rfl rfl (fun _ => rfl) rfl rfl rfl (fun _ => rfl)
  exact ⟨h.1.trans (by decide), h.2.trans (by decide)⟩

/-- C8: a directory-creation failure raised as `IOError` — the way an
"already exists" failure surfaces — is swallowed silently: the batch
proceeds and succeeds with exit 0 and no stderr line at all, in both
`scp_copy`'s directory branch and `upload_images`. Both functions are
deterministic in the embedding, so the same theorem applies verbatim to the
first and to the second invocation against the same pre-existing remote
directory: each succeeds. -/
theorem mkdirExistsSwallowed (cfg : Config) (p : Int)
    (hp : parsePort cfg = some p) (hcred : cfg.credsOk = true) (lp rp : String)
    (entries uentries : List Entry) (tbeh ubeh : SftpBeh) (m m2 : String)
    (hconn : tbeh.connectExc = none) (hsftp : tbeh.openSftpExc = none)
    (hmk : tbeh.mkdirExc = some (Exc.ioError m)) (hput : ∀ j, tbeh.putExc j = none)
    (huconn : ubeh.connectExc = none) (husftp : ubeh.openSftpExc = none)
    (humk : ubeh.mkdirExc = some (Exc.ioError m2)) (huput : ∀ j, ubeh.putExc j = none) :
    (scp_copy cfg lp rp (LocalPath.dir entries) tbeh).1 = .ret 0 ∧
    (scp_copy cfg lp rp (LocalPath.dir entries) tbeh).2.countP isPrintErrEvent = 0 ∧
    (upload_images cfg (some uentries) ubeh).1 = .ret 0 ∧
    (upload_images cfg (some uentries) ubeh).2.countP isPrintErrEvent = 0 := by
  have hscp : (scp_copy cfg lp rp (LocalPath.dir entries) tbeh).1 = .ret 0 ∧
      (scp_copy cfg lp rp (LocalPath.dir entries) tbeh).2.countP isPrintErrEvent = 0 := by
    obtain ⟨hl1, hl2, hl3, hl4⟩ := putLoop_ok rp
      (entries.filter (fun e => e.kind == FileKind.file)).length tbeh.putExc hput
      (entries.filter (fun e => e.kind == FileKind.file)) 0
    by_cases hemp : (entries.filter (fun e => e.kind == FileKind.file)).isEmpty
    · constructor <;>
        simp [scp_copy, hp, hcred, scpBody, hconn, hsftp, hemp, runFinally,
          List.countP_cons, List.countP_append, isPrintErrEvent]
    · rcases hpl : putLoop rp (entries.filter (fun e => e.kind == FileKind.file)).length
          tbeh.putExc 0 (entries.filter (fun e => e.kind == FileKind.file)) with ⟨evs, exc⟩
      rw [hpl] at hl1 hl4
      simp only at hl1 hl4
      subst hl1
      constructor <;>
        simp [scp_copy, hp, hcred, scpBody, hconn, hsftp, hmk, hemp, hpl, runFinally,
          List.countP_cons, List.countP_append, isPrintErrEvent, hl4]
  have hupl : (upload_images cfg (some uentries) ubeh).1 = .ret 0 ∧
      (upload_images cfg (some uentries) ubeh).2.countP isPrintErrEvent = 0 := by
    obtain ⟨hl1, hl2, hl3, hl4⟩ := putLoop_ok remoteImagesDir
      (imageGlob uentries).length ubeh.putExc huput (imageGlob uentries) 0
    by_cases hemp : (imageGlob uentries).isEmpty
    · constructor <;>
        simp [upload_images, hp, hcred, uploadImagesBody, huconn, husftp, humk, hemp,
          runFinally, List.countP_cons, List.countP_append, isPrintErrEvent]
    · rcases hpl : putLoop remoteImagesDir (imageGlob uentries).length ubeh.putExc 0
          (imageGlob uentries) with ⟨evs, exc⟩
      rw [hpl] at hl1 hl4
      simp only at hl1 hl4
      subst hl1
      constructor <;>
        simp [upload_images, hp, hcred, uploadImagesBody, huconn, husftp, humk, hemp, hpl,
          runFinally, List.countP_cons, List.countP_append, isPrintErrEvent, hl4]
  exact ⟨hscp.1, hscp.2, hupl.1, hupl.2⟩

/-- Witness for C8 with a concrete `IOError`-raising mkdir against a
non-empty batch: both entry points succeed silently. -/
theorem mkdirExistsSwallowedWitness :
    (scp_copy cfg0 "a" "b" (LocalPath.dir entries3) sftpBehMkdirFail).1 = .ret 0 ∧
    (upload_images cfg0 (some entries3) sftpBehMkdirFail).1 = .ret 0 := by
  have h := mkdirExistsSwallowed cfg0 22 rfl (by decide) "a" "b" entries3 entries3
    sftpBehMkdirFail sftpBehMkdirFail "exists" "exists" rfl rfl rfl (fun _ => rfl)
    rfl rfl rfl (fun _ => rfl)
  exact ⟨h.1, h.2.2.1⟩

/-- A handler's stderr line is never a put event. -/
theorem handlerEvent_not_put (e : Exc) : isPutEvent (handlerEvent e) = false := by
  cases e <;> rfl

/-- C9: if the put of file j (0-based) raises while all earlier puts
succeeded, the batch is aborted there — the put events are exactly the first
j + 1 files, so no later file is attempted — the invocation returns 1 and
the process exits 1, and the handler line carrying the underlying cause is
printed. The trace retains the puts of the files uploaded before the
failure, and the embedding has no remote-removal action at all: nothing is
rolled back. -/
theorem transferFailFast (cfg : Config) (p : Int)
    (hp : parsePort cfg = some p) (hcred : cfg.credsOk = true) (lp rp : String)
    (entries : List Entry) (tbeh : SftpBeh) (j : Nat) (e : Exc)
    (hconn : tbeh.connectExc = none) (hsftp : tbeh.openSftpExc = none)
    (hmk : tbeh.mkdirExc = none)
    (hok : ∀ k, k < j → tbeh.putExc k = none) (hfail : tbeh.putExc j = some e)
    (hj : j < (entries.filter (fun e => e.kind == FileKind.file)).length) :
    (scp_copy cfg lp rp (LocalPath.dir entries) tbeh).1 = .ret 1 ∧
    (scp_main cfg lp rp (LocalPath.dir entries) tbeh).1 = .exited 1 ∧
    (scp_copy cfg lp rp (LocalPath.dir entries) tbeh).2.filter isPutEvent
      = ((entries.filter (fun e => e.kind == FileKind.file)).take (j + 1)).map
          (fun f => Event.put f.name (rp ++ "/" ++ f.name)) ∧
    handlerEvent e ∈ (scp_copy cfg lp rp (LocalPath.dir entries) tbeh).2 := by
  have hok0 : ∀ k, k < j → tbeh.putExc (0 + k) = none := by
    intro k hk
    simpa using hok k hk
  have hfail0 : tbeh.putExc (0 + j) = some e := by simpa using hfail
  obtain ⟨hl1, hl2⟩ := putLoop_fail rp
    (entries.filter (fun e => e.kind == FileKind.file)).length tbeh.putExc
    (entries.filter (fun e => e.kind == FileKind.file)) 0 j e hok0 hfail0 hj
  have hemp : (entries.filter (fun e => e.kind == FileKind.file)).isEmpty = false := by
    cases hfe : entries.filter (fun e => e.kind == FileKind.file) with
    | nil => rw [hfe] at hj; simp at hj
    | cons a as => simp [hfe]
  rcases hpl : putLoop rp (entries.filter (fun e => e.kind == FileKind.file)).length
      tbeh.putExc 0 (entries.filter (fun e => e.kind == FileKind.file)) with ⟨evs, exc⟩
  rw [hpl] at hl1 hl2
  simp only at hl1 hl2
  subst hl1
  refine ⟨?_, ?_, ?_, ?_⟩
  · simp [scp_copy, hp, hcred, scpBody, hconn, hsftp, hmk, hemp, hpl, runFinally]
  · simp [scp_main, scp_copy, hp, hcred, scpBody, hconn, hsftp, hmk, hemp, hpl,
      runFinally, procExit]
  · simp [scp_copy, hp, hcred, scpBody, hconn, hsftp, hmk, hemp, hpl, runFinally,
      List.filter_cons, List.filter_append, isPutEvent, hl2, handlerEvent_not_put]
    cases e <;> rfl
  · simp [scp_copy, hp, hcred, scpBody, hconn, hsftp, hmk, hemp, hpl, runFinally]

/-- Witness for C9: the second put (j = 1) raises a transport error; exactly
the first two files are attempted, the invocation returns 1, and the SSH
failure line naming the cause is in the trace. -/
theorem transferFailFastWitness :
    (scp_copy cfg0 "a" "b" (LocalPath.dir entries3) sftpBehPutFail).1 = .ret 1 ∧
    (scp_copy cfg0 "a" "b" (LocalPath.dir entries3) sftpBehPutFail).2.filter isPutEvent
      = [Event.put "a.png" "b/a.png", Event.put "b.jpg" "b/b.jpg"] ∧
    handlerEvent (.sshException "dropped")
      ∈ (scp_copy cfg0 "a" "b" (LocalPath.dir entries3) sftpBehPutFail).2 := by
  have h := transferFailFast cfg0 22 rfl (by decide) "a" "b" entries3 sftpBehPutFail 1
    (.sshException "dropped") rfl rfl rfl
    (by intro k hk; interval_cases k; rfl) rfl (by decide)
  exact ⟨h.1, h.2.2.1.trans (by decide), h.2.2.2⟩

/-- C1 as frozen is refuted on the code: `dirOnlySub` is a local directory
containing no regular files — its only entry is a subdirectory named
`sub.png` — yet `upload_images`'s glob selection (which filters by name
only) picks it up and a file upload is attempted (one put event in the
trace), contrary to "no file upload is attempted"; and on the same directory
`scp_copy` performs no remote-directory-creation attempt at all (its
empty-batch return precedes the mkdir), contrary to "the only network action
it performs is the idempotent remote-directory-creation attempt". -/
theorem uploadImagesPutsWithoutRegularFiles :
    (dirOnlySub.filter (fun e => e.kind == FileKind.file) = []) ∧
    (upload_images cfg0 (some dirOnlySub) sftpBehOk).2.countP isPutEvent = 1 ∧
    (scp_copy cfg0 "a" "b" (LocalPath.dir dirOnlySub) sftpBehOk).2.countP
      isMkdirEvent = 0 := by
  decide

/-- C1 (amended): for every local directory containing no regular files,
`scp_copy`'s directory upload returns success (0) with no file upload
attempted and not even the directory-creation attempt (its empty-batch
return precedes the mkdir); `upload_images` returns success with no upload
attempted and exactly the one idempotent directory-creation attempt,
provided additionally that no entry's name matches `*.png`, `*.jpg` or
`*.webp` (its glob selection is by name only and does not check the
regular-file kind). -/
theorem emptyDirectoryUploadSuccess (cfg : Config) (p : Int)
    (hp : parsePort cfg = some p) (hcred : cfg.credsOk = true) (lp rp : String)
    (entries uentries : List Entry) (tbeh ubeh : SftpBeh)
    (hconn : tbeh.connectExc = none) (hsftp : tbeh.openSftpExc = none)
    (hnof : ∀ e ∈ entries, e.kind ≠ FileKind.file)
    (huconn : ubeh.connectExc = none) (husftp : ubeh.openSftpExc = none)
    (humk : ubeh.mkdirExc = none)
    (_hunof : ∀ e ∈ uentries, e.kind ≠ FileKind.file)
    (hunames : ∀ e ∈ uentries, matchesSuffix e.name ".png" = false ∧
      matchesSuffix e.name ".jpg" = false ∧ matchesSuffix e.name ".webp" = false) :
    (scp_copy cfg lp rp (LocalPath.dir entries) tbeh).1 = .ret 0 ∧
    (scp_copy cfg lp rp (LocalPath.dir entries) tbeh).2.countP isPutEvent = 0 ∧
    (scp_copy cfg lp rp (LocalPath.dir entries) tbeh).2.countP isMkdirEvent = 0 ∧
    (upload_images cfg (some uentries) ubeh).1 = .ret 0 ∧
    (upload_images cfg (some uentries) ubeh).2.countP isPutEvent = 0 ∧
    (upload_images cfg (some uentries) ubeh).2.countP isMkdirEvent = 1 := by
  have hnil : entries.filter (fun e => e.kind == FileKind.file) = [] := by
    rw [List.filter_eq_nil_iff]
    intro a ha
    simp [hnof a ha]
  have hglob : imageGlob uentries = [] := by
    have h1 : uentries.filter (fun e => matchesSuffix e.name ".png") = [] := by
      rw [List.filter_eq_nil_iff]
      intro a ha
      simp [(hunames a ha).1]
    have h2 : uentries.filter (fun e => matchesSuffix e.name ".jpg") = [] := by
      rw [List.filter_eq_nil_iff]
      intro a ha
      simp [(hunames a ha).2.1]
    have h3 : uentries.filter (fun e => matchesSuffix e.name ".webp") = [] := by
      rw [List.filter_eq_nil_iff]
      intro a ha
      simp [(hunames a ha).2.2]
    simp [imageGlob, h1, h2, h3]
  have hemp : (entries.filter (fun e => e.kind == FileKind.file)).isEmpty = true := by
    simp [hnil]
  have huemp : (imageGlob uentries).isEmpty = true := by simp [hglob]
  refine ⟨?_, ?_, ?_, ?_, ?_, ?_⟩ <;>
    simp [scp_copy, upload_images, hp, hcred, scpBody, uploadImagesBody, hconn, hsftp,
      huconn, husftp, humk, hemp, huemp, runFinally, List.countP_cons, List.countP_append,
      isPutEvent, isMkdirEvent]

/-- Witness for the amended C1: a directory with one subdirectory `sub`
(for `scp_copy`) and one subdirectory `notes` (for `upload_images`), neither
matching an image pattern. -/
theorem emptyDirectoryUploadSuccessWitness :
    (scp_copy cfg0 "a" "b" (LocalPath.dir [⟨"sub", FileKind.dir⟩]) sftpBehOk).1
      = .ret 0 ∧
    (scp_copy cfg0 "a" "b" (LocalPath.dir [⟨"sub", FileKind.dir⟩]) sftpBehOk).2.countP
      isPutEvent = 0 ∧
    (upload_images cfg0 (some [⟨"notes", FileKind.dir⟩]) sftpBehOk).1 = .ret 0 ∧
    (upload_images cfg0 (some [⟨"notes", FileKind.dir⟩]) sftpBehOk).2.countP
      isPutEvent = 0 := by
  have h := emptyDirectoryUploadSuccess cfg0 22 rfl (by decide) "a" "b"
    [⟨"sub", FileKind.dir⟩] [⟨"notes", FileKind.dir⟩] sftpBehOk sftpBehOk rfl rfl
    (by decide) rfl rfl rfl (by decide) (by decide)
  exact ⟨h.1, h.2.1, h.2.2.2.1, h.2.2.2.2.1⟩

end PerfumesStore
